import Mathlib

/-!
# Verification of the form-builder core (submission validation, field ordering, CSV export)

This file shallowly embeds the server-side core of the repository:

* the public submission endpoint `POST /api/forms/[id]/submit`
  (`src/app/api/forms/[id]/submit/route.ts`): field-type validators,
  required-field / type / option-membership checks, submission-limit and
  duplicate-email checks, and the persistence steps of an accepted submission;
* the field-management endpoints (`src/app/api/forms/[id]/fields/route.ts` and
  the per-field route): bulk reorder (PUT) and field deletion (DELETE) with its
  renumbering pass;
* the two response-export endpoints (`/api/responses/export` and
  `/api/forms/[id]/responses/export`): `escapeCsvValue`, `generateCsv`,
  `generateFormCsv` and the format dispatch of their GET handlers.

The persistent store (Prisma) is modelled as explicit lists passed to the
handlers; request-time data (client IP, current date) are explicit parameters.
JavaScript string/number primitives used by the routes (`trim`, `split`,
`includes`, a global single-character regex replace, `Number(...)`) are
embedded as structural functions on `List Char` so that everything reduces in
the kernel.  JavaScript specifics that no theorem below depends on are noted at
their definitions (Unicode whitespace beyond ASCII, IEEE-754 overflow of huge
numeric literals, UTF-16 code-unit order for astral characters).
-/

/-! ## JavaScript string primitives -/

/-- The whitespace test used for `trim` / `\s`.  JavaScript also treats some
further Unicode code points as whitespace; the routes and all inputs considered
here only involve ASCII whitespace. -/
def isJsSpace (c : Char) : Bool :=
  c = ' ' ∨ c = '\t' ∨ c = '\n' ∨ c = '\r'

/-- `String.prototype.trim` on the character list. -/
def trimList (l : List Char) : List Char :=
  ((l.dropWhile isJsSpace).reverse.dropWhile isJsSpace).reverse

/-- `value.trim()`. -/
def jsTrim (s : String) : String :=
  String.mk (trimList s.data)

/-- `value.includes(c)` for a single character `c`. -/
def jsIncludesChar (s : String) (c : Char) : Bool :=
  s.data.contains c

/-- `value.split(c)` on character lists: JavaScript `String.prototype.split`
with a single-character separator.  `""` splits to `[""]`, and separators at
the ends produce empty parts, exactly as in JavaScript. -/
def splitOnCharList (c : Char) : List Char → List (List Char)
  | [] => [[]]
  | a :: t =>
    match splitOnCharList c t with
    | [] => [[a]]
    | h :: r => if a = c then [] :: h :: r else (a :: h) :: r

/-- `value.split(c)` returning strings. -/
def jsSplit (s : String) (c : Char) : List String :=
  (splitOnCharList c s.data).map String.mk

/-- A stable sort (insertion sort) by a boolean `le`.  JavaScript
`Array.prototype.sort` is stable and, with the default comparator on strings,
orders by UTF-16 code units; for the strings arising here this agrees with the
code-point order used by `lexLe` below. -/
def insertSorted {α : Type} (le : α → α → Bool) (a : α) : List α → List α
  | [] => [a]
  | b :: t => if le a b then a :: b :: t else b :: insertSorted le a t

def stableSort {α : Type} (le : α → α → Bool) : List α → List α
  | [] => []
  | a :: t => insertSorted le a (stableSort le t)

/-- Code-point lexicographic order on character lists (the order of the default
JavaScript string sort, for strings without astral-plane characters). -/
def lexLe : List Char → List Char → Bool
  | [], _ => true
  | _ :: _, [] => false
  | a :: s, b :: t =>
    if a.toNat < b.toNat then true
    else if b.toNat < a.toNat then false
    else lexLe s t

/-- Default-comparator `sort()` on strings. -/
def jsSortStrings (l : List String) : List String :=
  stableSort (fun a b => lexLe a.data b.data) l

/-! ## `Number(value)` -/

/-- The result class of JavaScript `Number(string)`; finite results carry their
exact rational value.  Literals whose magnitude reaches the IEEE-754 double
overflow threshold saturate to `±Infinity` exactly as `Number(...)` does (see
`jsSaturate`); within range the exact rational is kept — the sub-ULP rounding
of in-range values is the one float behaviour not modelled, and no route logic
below depends on it. -/
inductive JsNum where
  | nan
  | posInf
  | negInf
  | finite (q : ℚ)
deriving DecidableEq, Repr

def JsNum.isNaN : JsNum → Bool
  | .nan => true
  | _ => false

/-- `n >= lo && n <= hi` on a `Number(...)` result (used by the RATING rule). -/
def JsNum.inRange (n : JsNum) (lo hi : ℚ) : Bool :=
  match n with
  | .finite q => lo ≤ q ∧ q ≤ hi
  | _ => false

def digitVal (c : Char) : ℕ := c.toNat - '0'.toNat

def natOfDigits (l : List Char) : ℕ :=
  l.foldl (fun a c => a * 10 + digitVal c) 0

def isHexDigitChar (c : Char) : Bool :=
  c.isDigit ∨ ('a' ≤ c ∧ c ≤ 'f') ∨ ('A' ≤ c ∧ c ≤ 'F')

def hexDigitVal (c : Char) : ℕ :=
  if c.isDigit then digitVal c
  else if 'a' ≤ c ∧ c ≤ 'f' then c.toNat - 'a'.toNat + 10
  else c.toNat - 'A'.toNat + 10

def natOfHexDigits (l : List Char) : ℕ :=
  l.foldl (fun a c => a * 16 + hexDigitVal c) 0

def natOfOctalDigits (l : List Char) : ℕ :=
  l.foldl (fun a c => a * 8 + digitVal c) 0

def natOfBinaryDigits (l : List Char) : ℕ :=
  l.foldl (fun a c => a * 2 + digitVal c) 0

/-- Strip one optional leading sign; returns (negative?, rest). -/
def stripSign (l : List Char) : Bool × List Char :=
  if l.take 1 = ['+'] then (false, l.drop 1)
  else if l.take 1 = ['-'] then (true, l.drop 1)
  else (false, l)

/-- Parse an unsigned decimal mantissa `digits [. digits]` / `. digits`
(ECMAScript `StrUnsignedDecimalLiteral` without the exponent). -/
def parseMantissa (l : List Char) : Option ℚ :=
  match splitOnCharList '.' l with
  | [ip] =>
    if ip ≠ [] ∧ ip.all Char.isDigit then some (natOfDigits ip) else none
  | [ip, fp] =>
    if (ip ≠ [] ∨ fp ≠ []) ∧ ip.all Char.isDigit ∧ fp.all Char.isDigit then
      some ((natOfDigits ip : ℚ) + (natOfDigits fp : ℚ) / (10 : ℚ) ^ fp.length)
    else none
  | _ => none

/-- Parse a signed decimal exponent part (digits required). -/
def parseExponent (l : List Char) : Option ℤ :=
  let (neg, r) := stripSign l
  if r ≠ [] ∧ r.all Char.isDigit then
    some (if neg then -(natOfDigits r : ℤ) else (natOfDigits r : ℤ))
  else none

/-- Parse an unsigned `StrDecimalLiteral`: mantissa with optional `e`/`E`
exponent. -/
def parseDecimalLiteral (l : List Char) : Option ℚ :=
  match splitOnCharList 'e' (l.map fun c => if c = 'E' then 'e' else c) with
  | [m] => parseMantissa m
  | [m, ex] =>
    match parseMantissa m, parseExponent ex with
    | some q, some e => some (q * (10 : ℚ) ^ e)
    | _, _ => none
  | _ => none

/-- The IEEE-754 double overflow threshold: under round-to-nearest-even, an
exact value of magnitude at least `2^1024 - 2^970` (the midpoint between the
largest finite double and `2^1024`) rounds to infinity, which is how
`Number(...)` saturates huge literals. -/
def jsHugeThreshold : ℚ := ((2 ^ 1024 - 2 ^ 970 : ℕ) : ℚ)

/-- Convert an exactly-parsed magnitude (with its sign) into the `Number(...)`
result: values at or beyond the double overflow threshold become `±Infinity`,
the rest stay finite with their exact rational value. -/
def jsSaturate (neg : Bool) (q : ℚ) : JsNum :=
  if jsHugeThreshold ≤ q then (if neg then .negInf else .posInf)
  else .finite (if neg then -q else q)

/-- JavaScript `Number(string)`: trim, empty ↦ `0`, signed `Infinity`,
unsigned hex/octal/binary literals, signed decimal literals (saturating to
`±Infinity` beyond the double range), else `NaN`. -/
def jsNumber (v : String) : JsNum :=
  let t := trimList v.data
  if t = [] then .finite 0
  else if t.take 2 = ['0', 'x'] ∨ t.take 2 = ['0', 'X'] then
    (let r := t.drop 2
     if r ≠ [] ∧ r.all isHexDigitChar then jsSaturate false (natOfHexDigits r) else .nan)
  else if t.take 2 = ['0', 'o'] ∨ t.take 2 = ['0', 'O'] then
    (let r := t.drop 2
     if r ≠ [] ∧ r.all (fun c => '0' ≤ c ∧ c ≤ '7') then
       jsSaturate false (natOfOctalDigits r)
     else .nan)
  else if t.take 2 = ['0', 'b'] ∨ t.take 2 = ['0', 'B'] then
    (let r := t.drop 2
     if r ≠ [] ∧ r.all (fun c => c = '0' ∨ c = '1') then
       jsSaturate false (natOfBinaryDigits r)
     else .nan)
  else
    let (neg, r) := stripSign t
    if r = "Infinity".data then (if neg then .negInf else .posInf)
    else
      match parseDecimalLiteral r with
      | some q => jsSaturate neg q
      | none => .nan

/-! ## Field types and the validator table (`fieldValidators` in the submit route) -/

inductive FieldType where
  | SHORT_TEXT
  | LONG_TEXT
  | EMAIL
  | PHONE
  | NUMBER
  | URL
  | DATE
  | DROPDOWN
  | RADIO_
  | CHECKBOX
  | RATING
  | FILE_UPLOAD
  | SECTION
deriving DecidableEq, Repr

/-- The string name of a field type (the database stores these as strings and
`generateFormCsv` interpolates them into headers). -/
def FieldType.name : FieldType → String
  | .SHORT_TEXT => "SHORT_TEXT"
  | .LONG_TEXT => "LONG_TEXT"
  | .EMAIL => "EMAIL"
  | .PHONE => "PHONE"
  | .NUMBER => "NUMBER"
  | .URL => "URL"
  | .DATE => "DATE"
  | .DROPDOWN => "DROPDOWN"
  | .RADIO_ => "RADIO"
  | .CHECKBOX => "CHECKBOX"
  | .RATING => "RATING"
  | .FILE_UPLOAD => "FILE_UPLOAD"
  | .SECTION => "SECTION"

/-- The regex `/^[^\s@]+@[^\s@]+\.[^\s@]+$/` of the EMAIL validator: splitting
on `@` must give exactly two `@`-free parts, the local part non-empty, nothing
may be whitespace, and the domain part must contain a `.` that has at least one
character on each side. -/
def matchesEmailRegex (v : String) : Bool :=
  match splitOnCharList '@' v.data with
  | [localPart, domain] =>
    localPart ≠ [] ∧ localPart.all (fun c => ¬ isJsSpace c) ∧
    domain.all (fun c => ¬ isJsSpace c) ∧
    ((domain.drop 1).dropLast).contains '.'
  | _ => false

/-- `value.replace(/[\s\-\(\)]/g, '')` of the PHONE validator. -/
def phoneStripped (v : String) : List Char :=
  v.data.filter (fun c => ¬ (isJsSpace c ∨ c = '-' ∨ c = '(' ∨ c = ')'))

/-- The regex `/^[\+]?[1-9][\d]{0,15}$/` of the PHONE validator. -/
def matchesPhoneRegex (l : List Char) : Bool :=
  let l' := match l with
    | '+' :: r => r
    | _ => l
  match l' with
  | [] => false
  | c :: rest => ('1' ≤ c ∧ c ≤ '9') ∧ rest.length ≤ 15 ∧ rest.all Char.isDigit

def urlSchemeChar (c : Char) : Bool :=
  c.isAlpha ∨ c.isDigit ∨ c = '+' ∨ c = '-' ∨ c = '.'

/-- Split a character list at the first occurrence of `c` (none if absent). -/
def splitAtFirst (c : Char) : List Char → Option (List Char × List Char)
  | [] => none
  | a :: t =>
    if a = c then some ([], t)
    else (splitAtFirst c t).map (fun p => (a :: p.1, p.2))

/-- Abstraction of the WHATWG `new URL(value)` constructor used by the URL
validator: a well-formed non-empty scheme followed by `:`, with the special
schemes requiring `//` and a non-empty host.  This models the library
behaviour, not repository code; no theorem below depends on it. -/
def jsURLParses (v : String) : Bool :=
  match splitAtFirst ':' (trimList v.data) with
  | none => false
  | some (scheme, rest) =>
    let schemeOk : Bool :=
      match scheme with
      | [] => false
      | c :: cs => c.isAlpha && cs.all urlSchemeChar
    let lower := scheme.map Char.toLower
    let special : Bool :=
      lower = "http".data || lower = "https".data || lower = "ws".data ||
        lower = "wss".data || lower = "ftp".data
    let hostOk : Bool :=
      match rest with
      | '/' :: '/' :: h =>
        decide ((h.takeWhile (fun c => c ≠ '/' ∧ c ≠ '?' ∧ c ≠ '#')) ≠ [])
      | _ => false
    schemeOk && (!special || hostOk)

/-- Abstraction of `Date.parse(value)` succeeding, used by the DATE validator:
an ISO `YYYY-MM-DD` prefix with a calendar-plausible month and day, optionally
followed by a `T...` time part.  This models the library behaviour on the date
strings the application produces; no theorem below depends on it. -/
def jsDateParses (v : String) : Bool :=
  match v.data with
  | y1 :: y2 :: y3 :: y4 :: '-' :: m1 :: m2 :: '-' :: d1 :: d2 :: rest =>
    [y1, y2, y3, y4, m1, m2, d1, d2].all Char.isDigit ∧
    1 ≤ natOfDigits [m1, m2] ∧ natOfDigits [m1, m2] ≤ 12 ∧
    1 ≤ natOfDigits [d1, d2] ∧ natOfDigits [d1, d2] ≤ 31 ∧
    (rest = [] ∨ rest.head? = some 'T')
  | _ => false

/-- `n >= q` on a `Number(...)` result (`NaN` compares false). -/
def JsNum.geConst (n : JsNum) (q : ℚ) : Bool :=
  match n with
  | .nan => false
  | .posInf => true
  | .negInf => false
  | .finite x => q ≤ x

/-- `n <= q` on a `Number(...)` result (`NaN` compares false). -/
def JsNum.leConst (n : JsNum) (q : ℚ) : Bool :=
  match n with
  | .nan => false
  | .posInf => false
  | .negInf => true
  | .finite x => x ≤ q

/-- The `fieldValidators` lookup table of
`src/app/api/forms/[id]/submit/route.ts`, one rule per field type. -/
def fieldValidators (t : FieldType) (value : String) : Bool :=
  match t with
  | .SHORT_TEXT => (jsTrim value).length > 0
  | .LONG_TEXT => (jsTrim value).length > 0
  | .EMAIL => matchesEmailRegex value
  | .PHONE => matchesPhoneRegex (phoneStripped value)
  | .NUMBER => ¬ (jsNumber value).isNaN ∧ jsTrim value ≠ ""
  | .URL => jsURLParses value
  | .DATE => jsDateParses value
  | .DROPDOWN => jsTrim value ≠ ""
  | .RADIO_ => jsTrim value ≠ ""
  | .CHECKBOX => jsTrim value ≠ ""
  | .RATING =>
    let num := jsNumber value
    ¬ num.isNaN ∧ num.geConst 1 ∧ num.leConst 5
  | .FILE_UPLOAD => jsTrim value ≠ ""
  | .SECTION => true

/-! ## Data model (the Prisma rows the routes read and write) -/

inductive FormStatus where
  | DRAFT
  | PUBLISHED
  | ARCHIVED
deriving DecidableEq, Repr

structure FormField where
  id : String
  type : FieldType
  label : String
  required : Bool
  options : List String
  order : ℤ
deriving DecidableEq, Repr

/-- The `settings` JSON bag of a form, restricted to the keys the submit route
reads (`settings.maxSubmissions`, `settings.preventDuplicates`).  A missing or
null bag is `none`/`false` fields. -/
structure FormSettings where
  maxSubmissions : Option ℤ
  preventDuplicates : Bool
deriving DecidableEq, Repr

/-- A form as loaded by the routes: `fields` is the `include`d field list,
already ordered by `order asc`. -/
structure Form where
  id : String
  title : String
  status : FormStatus
  fields : List FormField
  settings : FormSettings
deriving DecidableEq, Repr

/-- One entry of the submitted `fields` array (`{fieldId, value}`). -/
structure SubmittedField where
  fieldId : String
  value : String
deriving DecidableEq, Repr

/-- The zod-validated submission body.  `respondentEmail` is optional and may
be the empty string (`.or(z.literal(''))`); `none` models an absent key. -/
structure SubmitBody where
  respondentEmail : Option String
  fields : List SubmittedField
deriving DecidableEq, Repr

/-- An already-persisted response row, as far as the submit route consults it
(the duplicate check only reads `respondentEmail`). -/
structure ExistingResponse where
  respondentEmail : Option String
deriving DecidableEq, Repr

/-! ## The submission endpoint `POST /api/forms/[id]/submit` -/

/-- The required-field loop: for every field with `required = true` (no type
is excluded), the submission must contain an entry with that `fieldId` whose
trimmed value is non-empty; otherwise one error naming the label is pushed.
`find?` returns the first matching entry, as `Array.prototype.find` does. -/
def requiredFieldErrors (form : Form) (submitted : List SubmittedField) : List String :=
  (form.fields.filter (fun f => f.required)).flatMap fun field =>
    match submitted.find? (fun sf => sf.fieldId = field.id) with
    | none => ["Field \"" ++ field.label ++ "\" is required"]
    | some sf =>
      if jsTrim sf.value = "" then ["Field \"" ++ field.label ++ "\" is required"]
      else []

/-- Truthiness of `field.options && field.options.length > 0` together with the
choice-type test guarding the option-membership check. -/
def isChoiceWithOptions (f : FormField) : Bool :=
  (f.type = .DROPDOWN ∨ f.type = .RADIO_ ∨ f.type = .CHECKBOX) ∧ f.options ≠ []

/-- The per-submitted-entry loop: entries whose `fieldId` matches no field are
skipped; a non-blank value failing its type validator pushes one error; for
choice fields with configured options, the first comma-split trimmed token that
is non-empty and not in the option list pushes one error (the source `break`s
after the first, hence `find?`). -/
def typeOptionErrors (form : Form) (submitted : List SubmittedField) : List String :=
  submitted.flatMap fun sf =>
    match form.fields.find? (fun f => f.id = sf.fieldId) with
    | none => []
    | some field =>
      (if jsTrim sf.value ≠ "" ∧ fieldValidators field.type sf.value = false then
        ["Field \"" ++ field.label ++ "\" contains invalid data"]
      else []) ++
      (if isChoiceWithOptions field then
        match ((jsSplit sf.value ',').map jsTrim).find?
            (fun v => v ≠ "" ∧ field.options.contains v = false) with
        | some v => ["Field \"" ++ field.label ++ "\" contains invalid option: " ++ v]
        | none => []
      else [])

/-- The accumulated `validationErrors` array: the required-field loop runs
first, then the type/option loop. -/
def validationErrorsOf (form : Form) (submitted : List SubmittedField) : List String :=
  requiredFieldErrors form submitted ++ typeOptionErrors form submitted

/-- Truthiness of `settings.maxSubmissions && settings.maxSubmissions > 0`
followed by `responseCount >= settings.maxSubmissions`. -/
def submissionLimitReached (settings : FormSettings) (responseCount : ℕ) : Bool :=
  match settings.maxSubmissions with
  | some m => 0 < m ∧ (responseCount : ℤ) ≥ m
  | none => false

/-- Truthiness of `settings.preventDuplicates && validatedData.respondentEmail`
followed by the `findFirst` duplicate lookup on the same form and exact email. -/
def duplicateSubmission (settings : FormSettings) (existing : List ExistingResponse)
    (respondentEmail : Option String) : Bool :=
  settings.preventDuplicates &&
  (match respondentEmail with
   | some e => e ≠ "" && existing.any (fun r => r.respondentEmail = some e)
   | none => false)

/-- `validatedData.respondentEmail || null` of the created response row. -/
def emailOrNull (respondentEmail : Option String) : Option String :=
  match respondentEmail with
  | some e => if e = "" then none else some e
  | none => none

/-- Outcome of the submit handler, with the data each HTTP response carries.
`created` carries the stored email and the rows of the `createMany` call
(entries whose trimmed value is empty are dropped). -/
inductive SubmitResult where
  | notFound
  | notPublished
  | limitReached
  | validationFailed (details : List String)
  | duplicate
  | created (respondentEmail : Option String) (storedValues : List SubmittedField)
deriving DecidableEq, Repr

/-- The `POST /api/forms/[id]/submit` handler after the zod parse, as a
function of the looked-up form, the form's already-persisted responses (the
limit check counts them, the duplicate check searches them) and the request
body. -/
def submitPOST (form? : Option Form) (existing : List ExistingResponse)
    (body : SubmitBody) : SubmitResult :=
  match form? with
  | none => .notFound
  | some form =>
    if form.status ≠ .PUBLISHED then .notPublished
    else if submissionLimitReached form.settings existing.length then .limitReached
    else
      let validationErrors := validationErrorsOf form body.fields
      if validationErrors ≠ [] then .validationFailed validationErrors
      else if duplicateSubmission form.settings existing body.respondentEmail then .duplicate
      else
        .created (emailOrNull body.respondentEmail)
          (body.fields.filter (fun f => jsTrim f.value ≠ ""))

/-! ## Persistence of an accepted submission (the store calls of the submit
route's success path) -/

/-- One call to the store.  The accepted path of the submit route issues
`db.formResponse.create` and then, if there are rows, a separate
`db.responseField.createMany` — there is no surrounding transaction in the
source. -/
inductive StoreOp where
  | createResponse (responseId : String) (respondentEmail : Option String)
  | createManyResponseFields (rows : List (String × String × String))
deriving DecidableEq, Repr

/-- The store state the two calls touch: response rows (id, email) and
response-field rows (responseId, fieldId, value). -/
structure SubmitStore where
  responses : List (String × Option String)
  responseFields : List (String × String × String)
deriving DecidableEq, Repr

def applyStoreOp (s : SubmitStore) : StoreOp → SubmitStore
  | .createResponse id email => { s with responses := s.responses ++ [(id, email)] }
  | .createManyResponseFields rows => { s with responseFields := s.responseFields ++ rows }

def applyStoreOps (s : SubmitStore) (ops : List StoreOp) : SubmitStore :=
  ops.foldl applyStoreOp s

/-- The sequence of store calls the success path performs, in source order:
`db.formResponse.create`, then — only when the filtered rows are non-empty —
`db.responseField.createMany` with one row per entry whose trimmed value is
non-empty.  `newResponseId` stands for the id the store assigns to the created
response. -/
def submitStoreOps (newResponseId : String) (body : SubmitBody) : List StoreOp :=
  let responseFieldsData :=
    (body.fields.filter (fun f => jsTrim f.value ≠ "")).map
      (fun f => (newResponseId, f.fieldId, f.value))
  [StoreOp.createResponse newResponseId (emailOrNull body.respondentEmail)] ++
    (if responseFieldsData = [] then [] else [StoreOp.createManyResponseFields responseFieldsData])

/-- All-or-nothing persistence: every strict prefix of the issued call sequence
leaves the store with either no trace of the submission or the complete one. -/
def atomicFor (s0 : SubmitStore) (ops : List StoreOp) (responseId : String) : Prop :=
  ∀ k ≤ ops.length,
    let s := applyStoreOps s0 (ops.take k)
    (s.responses.all (fun r => r.1 ≠ responseId) ∧
      s.responseFields.all (fun r => r.1 ≠ responseId)) ∨
    s = applyStoreOps s0 ops

/-! ## Field management: bulk reorder (PUT) and deletion (DELETE) -/

/-- `findMany(orderBy: order asc)`: a stable sort of the stored fields by
`order`. -/
def sortFieldsByOrder (fs : List FormField) : List FormField :=
  stableSort (fun a b => a.order ≤ b.order) fs

/-- The `PUT /api/forms/[id]/fields` transaction body: one
`db.formField.update({where:{id}, data:{order}})` per payload entry, applied in
payload order.  An entry whose id matches no stored field makes the whole
transaction fail (`none`; the route answers 500 and the store is unchanged).
The payload orders are written verbatim — no renumbering happens here. -/
def reorderPUT (storeFields : List FormField) (payload : List (String × ℤ)) :
    Option (List FormField) :=
  if payload.all (fun p => storeFields.any (fun f => f.id = p.1)) then
    some (payload.foldl
      (fun fs p => fs.map (fun f => if f.id = p.1 then { f with order := p.2 } else f))
      storeFields)
  else none

/-- Assign `order := index` along a list, starting at `n` (the
`remainingFields.map((field, index) => update({data:{order: index}}))` pass of
the DELETE handler). -/
def renumberFrom (n : ℤ) : List FormField → List FormField
  | [] => []
  | f :: t => { f with order := n } :: renumberFrom (n + 1) t

/-- The `DELETE /api/forms/[id]/fields/[fieldId]` handler on the form's stored
fields: 404 (`none`) when the id is absent; otherwise the field is deleted, the
remaining fields are fetched ordered by `order asc`, and each is rewritten with
`order := its index` in that sequence. -/
def deleteFieldDELETE (storeFields : List FormField) (fieldId : String) :
    Option (List FormField) :=
  if storeFields.any (fun f => f.id = fieldId) then
    some (renumberFrom 0 (sortFieldsByOrder (storeFields.filter (fun f => f.id ≠ fieldId))))
  else none

/-- The invariant claimed for sibling orders: sorted by `order`, the orders
read `0, 1, …, n-1`. -/
def ordersContiguous (fs : List FormField) : Prop :=
  (sortFieldsByOrder fs).map (fun f => f.order) = (List.range fs.length).map Int.ofNat

/-! ## CSV export (`/api/responses/export` and `/api/forms/[id]/responses/export`) -/

/-- `value.replace(/"/g, '""')`. -/
def jsReplaceQuotes (v : String) : String :=
  String.mk (v.data.flatMap fun c => if c = '"' then ['"', '"'] else [c])

/-- `escapeCsvValue`, identical in both export routes: quote (and double the
internal quotes of) a value containing a comma, a quote or a newline.  The
comma is hard-coded; the configured `fieldDelimiter` is not consulted. -/
def escapeCsvValue (value : String) : String :=
  if jsIncludesChar value ',' || jsIncludesChar value '"' || jsIncludesChar value '\n' then
    "\"" ++ jsReplaceQuotes value ++ "\""
  else value

/-- The field metadata the export queries `select` (`{id, type, label}`). -/
structure ExportFieldMeta where
  id : String
  type : FieldType
  label : String
deriving DecidableEq, Repr

/-- One stored response-field row joined with its field metadata. -/
structure ExportResponseField where
  fieldId : String
  value : String
  field : ExportFieldMeta
deriving DecidableEq, Repr

/-- One response row as the export routes read it.  `formId`/`formTitle`
flatten the `include`d `form` relation; `status` and `submittedAt` are
modelled as the strings that end up interpolated into the CSV. -/
structure ExportResponse where
  id : String
  formId : String
  formTitle : String
  respondentEmail : Option String
  status : String
  submittedAt : String
  ipAddress : Option String
  fields : List ExportResponseField
deriving DecidableEq, Repr

/-- JavaScript `Set` insertion: keep first occurrence order. -/
def insertUniq (l : List String) (x : String) : List String :=
  if l.contains x then l else l ++ [x]

/-- The label-collection pass of `generateCsv` (a `Set` filled response by
response, field by field). -/
def collectFieldLabels (responses : List ExportResponse) : List String :=
  responses.foldl (fun acc r => r.fields.foldl (fun acc2 f => insertUniq acc2 f.field.label) acc) []

/-- `Map.get` after repeated `Map.set` in list order: the last binding wins. -/
def mapGetLast (pairs : List (String × String)) (k : String) : Option String :=
  (pairs.reverse.find? (fun p => p.1 = k)).map (fun p => p.2)

def metadataHeaders : List String :=
  ["Response ID", "Form ID", "Form Title", "Respondent Email", "Status",
   "Submitted At", "IP Address"]

/-- `generateCsv` of `/api/responses/export`: union of field labels sorted
lexicographically as columns; metadata cells pushed raw; field-value cells
pushed through `escapeCsvValue`; then the whole row is mapped through
`escapeCsvValue` once more (so field-value cells pass through it twice) and
joined with the delimiter; header and rows joined with newlines. -/
def generateCsv (responses : List ExportResponse) (includeMetadata : Bool)
    (delimiter : String) : String :=
  if responses = [] then ""
  else
    let sortedFieldLabels := jsSortStrings (collectFieldLabels responses)
    let headers := (if includeMetadata then metadataHeaders else []) ++ sortedFieldLabels
    let rows := responses.map fun response =>
      let metaCells : List String :=
        if includeMetadata then
          [response.id, response.formId, response.formTitle,
           response.respondentEmail.getD "", response.status, response.submittedAt,
           response.ipAddress.getD ""]
        else []
      let fieldValueMap := response.fields.map (fun f => (f.field.label, f.value))
      let fieldCells := sortedFieldLabels.map fun label =>
        escapeCsvValue ((mapGetLast fieldValueMap label).getD "")
      String.intercalate delimiter ((metaCells ++ fieldCells).map escapeCsvValue)
    String.intercalate "\n"
      (String.intercalate delimiter (headers.map escapeCsvValue) :: rows)

/-- The options of the form-specific export that `generateFormCsv` reads. -/
structure FormExportOptions where
  includeMetadata : Bool
  includeFieldTypes : Bool
  fieldDelimiter : String
  dateRange : String
deriving DecidableEq, Repr

def formMetadataHeaders : List String :=
  ["Response ID", "Respondent Email", "Status", "Submitted At", "IP Address"]

/-- `generateFormCsv` of `/api/forms/[id]/responses/export`: columns follow the
form's own field order; values are looked up by field id; a `# `-prefixed
summary block precedes the header.  As in `generateCsv`, field-value cells go
through `escapeCsvValue` twice while metadata cells go through it once. -/
def generateFormCsv (responses : List ExportResponse) (formFields : List FormField)
    (options : FormExportOptions) (formTitle : String) (exportDate : String) : String :=
  if responses = [] then ""
  else
    let headers := (if options.includeMetadata then formMetadataHeaders else []) ++
      formFields.map (fun field =>
        field.label ++ (if options.includeFieldTypes then " (" ++ field.type.name ++ ")" else ""))
    let rows := responses.map fun response =>
      let metaCells : List String :=
        if options.includeMetadata then
          [response.id, response.respondentEmail.getD "", response.status,
           response.submittedAt, response.ipAddress.getD ""]
        else []
      let fieldValueMap := response.fields.map (fun f => (f.fieldId, f.value))
      let fieldCells := formFields.map fun field =>
        escapeCsvValue ((mapGetLast fieldValueMap field.id).getD "")
      String.intercalate options.fieldDelimiter ((metaCells ++ fieldCells).map escapeCsvValue)
    let summaryRows :=
      ["Form: " ++ formTitle, "Export Date: " ++ exportDate,
       "Total Responses: " ++ toString responses.length,
       "Date Range: " ++ options.dateRange, ""]
    String.intercalate "\n"
      (summaryRows.map (fun row => "# " ++ row) ++
        (String.intercalate options.fieldDelimiter (headers.map escapeCsvValue) :: rows))

inductive ExportFormat where
  | csv
  | excel
deriving DecidableEq, Repr

/-- Outcome of an export GET: an error JSON with its HTTP status, or a text
body with its content type.  The `Content-Disposition` filename (a
date-stamped attachment name whose extension is `.csv` or `.xlsx`) is the only
part of the response not modelled, being derived from the request date. -/
inductive ExportResult where
  | err (status : ℕ) (message : String)
  | ok (body : String) (contentType : String)
deriving DecidableEq, Repr

def ExportResult.bodyOf : ExportResult → Option String
  | .ok b _ => some b
  | .err _ _ => none

def ExportResult.contentTypeOf : ExportResult → Option String
  | .ok _ ct => some ct
  | .err _ _ => none

/-- The `/api/responses/export` GET handler after the query parse and the
(store-side) filtering: empty result set answers 404; `csv` renders with the
configured delimiter; `excel` renders the same generator with `,` and an Excel
content type. -/
def exportGET (format : ExportFormat) (includeMetadata : Bool) (fieldDelimiter : String)
    (responses : List ExportResponse) : ExportResult :=
  if responses = [] then .err 404 "No responses found for the specified criteria"
  else
    match format with
    | .csv => .ok (generateCsv responses includeMetadata fieldDelimiter) "text/csv"
    | .excel => .ok (generateCsv responses includeMetadata ",") "application/vnd.ms-excel"

/-- The `/api/forms/[id]/responses/export` GET handler after the form lookup
and filtering: empty result set answers 404; `excel` reuses `generateFormCsv`
with the delimiter overridden to `,`. -/
def formExportGET (form : Form) (format : ExportFormat) (options : FormExportOptions)
    (exportDate : String) (responses : List ExportResponse) : ExportResult :=
  if responses = [] then .err 404 "No responses found for this form"
  else
    match format with
    | .csv =>
      .ok (generateFormCsv responses form.fields options form.title exportDate) "text/csv"
    | .excel =>
      .ok (generateFormCsv responses form.fields { options with fieldDelimiter := "," }
        form.title exportDate) "application/vnd.ms-excel"

/-- Modelled from the spec: re-splitting one row "by the delimiter (respecting
quoting, un-doubling internal quotes)" — the standard CSV cell reader a
spreadsheet applies to a row.  Outside quotes the delimiter ends a cell and a
quote opens quoted mode; inside quotes a doubled quote contributes one quote
and a single quote closes quoted mode. -/
def splitCsvRowGo (delim : Char) : Bool → List Char → List Char → List String
  | _, [], cur => [String.mk cur.reverse]
  | false, c :: rest, cur =>
    if c = delim then String.mk cur.reverse :: splitCsvRowGo delim false rest []
    else if c = '"' then splitCsvRowGo delim true rest cur
    else splitCsvRowGo delim false rest (c :: cur)
  | true, '"' :: '"' :: rest2, cur => splitCsvRowGo delim true rest2 ('"' :: cur)
  | true, c :: rest, cur =>
    if c = '"' then splitCsvRowGo delim false rest cur
    else splitCsvRowGo delim true rest (c :: cur)

/-- Split one CSV row into its unescaped cells. -/
def splitCsvRow (delim : Char) (row : String) : List String :=
  splitCsvRowGo delim false row.data []

/-! ## Named concrete instances used by counterexamples and witnesses -/

/-- A section field marked required (creatable through `POST .../fields`,
whose schema accepts `required` for every type). -/
def sectionIntroField : FormField :=
  { id := "sec-1", type := .SECTION, label := "Intro", required := true,
    options := [], order := 0 }

def sectionForm : Form :=
  { id := "form-1", title := "Feedback", status := .PUBLISHED,
    fields := [sectionIntroField],
    settings := { maxSubmissions := none, preventDuplicates := false } }

def emptyBody : SubmitBody := { respondentEmail := none, fields := [] }

def nameField : FormField :=
  { id := "name-1", type := .SHORT_TEXT, label := "Name", required := true,
    options := [], order := 0 }

/-- A published form with duplicate prevention on and one required text field. -/
def dupForm : Form :=
  { id := "form-2", title := "Signup", status := .PUBLISHED,
    fields := [nameField],
    settings := { maxSubmissions := none, preventDuplicates := true } }

def dupExisting : List ExistingResponse := [{ respondentEmail := some "a@b.com" }]

/-- Duplicate email and a missing required field at once. -/
def dupBody : SubmitBody := { respondentEmail := some "a@b.com", fields := [] }

/-- Duplicate email with the required field satisfied. -/
def dupOkBody : SubmitBody :=
  { respondentEmail := some "a@b.com", fields := [{ fieldId := "name-1", value := "Bob" }] }

def limitForm : Form :=
  { id := "form-3", title := "Poll", status := .PUBLISHED,
    fields := [nameField],
    settings := { maxSubmissions := some 1, preventDuplicates := false } }

def bobBody : SubmitBody :=
  { respondentEmail := none, fields := [{ fieldId := "name-1", value := "Bob" }] }

/-- One exported response whose single field value contains both a quote and a
comma (the spec's own round-trip example). -/
def csvResponse : ExportResponse :=
  { id := "r1", formId := "form-1", formTitle := "Feedback", respondentEmail := none,
    status := "NEW", submittedAt := "2026-01-01", ipAddress := none,
    fields := [{ fieldId := "c-1", value := "Says \"hi\", bye",
                 field := { id := "c-1", type := .LONG_TEXT, label := "Comment" } }] }

def fieldA : FormField :=
  { id := "f1", type := .SHORT_TEXT, label := "A", required := false, options := [], order := 0 }

def fieldB : FormField :=
  { id := "f2", type := .SHORT_TEXT, label := "B", required := false, options := [], order := 1 }

def sampleOptions : FormExportOptions :=
  { includeMetadata := true, includeFieldTypes := false, fieldDelimiter := ";",
    dateRange := "30d" }

/-! ## Formal statements of two claimed properties (to be compared with the
behaviour of the embedded code) -/

/-- The quoting condition claimed for `escapeCsvValue` under a configured
delimiter `d`: quote exactly when the value contains `d`, a quote, or a
newline. -/
def escapeQuotesExactlyForDelim (d : Char) : Prop :=
  ∀ v : String,
    escapeCsvValue v ≠ v ↔
      (jsIncludesChar v d = true ∨ jsIncludesChar v '"' = true ∨
        jsIncludesChar v '\n' = true)

/-- The claimed NUMBER rule: accept exactly the strings that parse to a finite
numeric value. -/
def numberAcceptsIffFinite : Prop :=
  ∀ v : String, fieldValidators .NUMBER v = true ↔ ∃ q : ℚ, jsNumber v = .finite q

/-- The last `order` the reorder payload assigns to `id`, defaulting to the
stored order (later `update` calls overwrite earlier ones). -/
def lastPayloadOrder : List (String × ℤ) → String → ℤ → ℤ
  | [], _, dflt => dflt
  | p :: ps, id, dflt => lastPayloadOrder ps id (if id = p.1 then p.2 else dflt)

/-! ## Theorems -/

/-- C10: for every export request whose filters match zero responses, both
export GET handlers return an HTTP 404 JSON error (with their respective "No
responses found" messages) instead of a delimited document. -/
theorem C10_empty_filter_yields_404 :
    (∀ (format : ExportFormat) (meta : Bool) (delim : String),
      exportGET format meta delim [] =
        .err 404 "No responses found for the specified criteria") ∧
    (∀ (form : Form) (format : ExportFormat) (options : FormExportOptions) (d : String),
      formExportGET form format options d [] =
        .err 404 "No responses found for this form") := by
  constructor
  · intro format meta delim
    rfl
  · intro form format options d
    rfl

/-- C9: for every export request, format `excel` produces exactly the same
text body as a `csv` export of the same responses with the comma delimiter and
the same metadata settings, in both export endpoints; only the content type
(and the attachment extension, which is derived from it) differs. -/
theorem C9_excel_is_csv_with_comma
    (meta : Bool) (delim : String) (rs : List ExportResponse)
    (form : Form) (options : FormExportOptions) (exportDate : String)
    (hne : rs ≠ []) :
    (exportGET .excel meta delim rs).bodyOf = (exportGET .csv meta "," rs).bodyOf ∧
    (formExportGET form .excel options exportDate rs).bodyOf =
      (formExportGET form .csv { options with fieldDelimiter := "," } exportDate rs).bodyOf ∧
    (exportGET .excel meta delim rs).contentTypeOf = some "application/vnd.ms-excel" ∧
    (exportGET .csv meta delim rs).contentTypeOf = some "text/csv" ∧
    (formExportGET form .excel options exportDate rs).contentTypeOf =
      some "application/vnd.ms-excel" ∧
    (formExportGET form .csv options exportDate rs).contentTypeOf = some "text/csv" := by
  unfold exportGET formExportGET
  simp [hne, ExportResult.bodyOf, ExportResult.contentTypeOf]

/-- Closed witness for C9 at a one-response export. -/
theorem C9_excel_is_csv_with_comma_witness :
    (exportGET .excel true ";" [csvResponse]).bodyOf =
      (exportGET .csv true "," [csvResponse]).bodyOf ∧
    (exportGET .excel true ";" [csvResponse]).contentTypeOf =
      some "application/vnd.ms-excel" := by
  have h := C9_excel_is_csv_with_comma true ";" [csvResponse] sectionForm sampleOptions
    "2026-01-02" (by decide)
  exact ⟨h.1, h.2.2.1⟩

/-- C5: for every published form whose `settings.maxSubmissions` is a positive
integer already reached by the existing response count, every submission is
rejected with the single submission-limit error (`.limitReached`), whatever the
body contains — no field-level validation result and no created response
appears in the outcome. -/
theorem C5_submission_limit_short_circuits
    (form : Form) (existing : List ExistingResponse) (body : SubmitBody) (m : ℤ)
    (hpub : form.status = .PUBLISHED)
    (hmax : form.settings.maxSubmissions = some m)
    (hpos : 0 < m)
    (hcount : (existing.length : ℤ) ≥ m) :
    submitPOST (some form) existing body = .limitReached := by
  unfold submitPOST submissionLimitReached
  simp [hpub, hmax, hpos, hcount]

/-- Closed witness for C5: `maxSubmissions = 1`, one stored response, second
submission rejected. -/
theorem C5_submission_limit_short_circuits_witness :
    submitPOST (some limitForm) [{ respondentEmail := none }] bobBody = .limitReached :=
  C5_submission_limit_short_circuits limitForm [{ respondentEmail := none }] bobBody 1
    rfl rfl (by decide) (by decide)

/-- C1 (code bug): the round-trip fails for a field value needing quoting.
For the concrete export of one response whose field value is `Says "hi", bye`,
the generated document's data row, split back by the delimiter with standard
CSV unquoting, yields the once-escaped text `"Says ""hi"", bye"` — i.e.
`escapeCsvValue` applied to the original — and not the original value, because
the generator passes field-value cells through `escapeCsvValue` twice. -/
theorem C1_field_value_cells_escaped_twice :
    jsSplit (generateCsv [csvResponse] false ",") '\n' =
      ["Comment", "\"\"\"Says \"\"\"\"hi\"\"\"\", bye\"\"\""] ∧
    splitCsvRow ',' "\"\"\"Says \"\"\"\"hi\"\"\"\", bye\"\"\"" =
      ["\"Says \"\"hi\"\", bye\""] ∧
    "\"Says \"\"hi\"\", bye\"" = escapeCsvValue "Says \"hi\", bye" ∧
    "\"Says \"\"hi\"\", bye\"" ≠ "Says \"hi\", bye" := by
  refine ⟨by decide, by decide, by decide, by decide⟩

/-- C6 (code bug): the success path issues two separate store calls —
`createResponse` then `createManyResponseFields` — and after the first call
alone the store holds the response with no field values, so the creation is
not all-or-nothing. -/
theorem C6_response_creation_not_atomic :
    submitStoreOps "r1" bobBody =
      [StoreOp.createResponse "r1" none,
       StoreOp.createManyResponseFields [("r1", "name-1", "Bob")]] ∧
    (applyStoreOps { responses := [], responseFields := [] }
        ((submitStoreOps "r1" bobBody).take 1) =
      { responses := [("r1", none)], responseFields := [] }) ∧
    ¬ atomicFor { responses := [], responseFields := [] } (submitStoreOps "r1" bobBody) "r1" := by
  refine ⟨by decide, by decide, ?_⟩
  intro h
  exact absurd (h 1 (by decide)) (by decide)

theorem stringDataAppend (a b : String) : (a ++ b).data = a.data ++ b.data := rfl

theorem flatMapQuote_length_ge (l : List Char) :
    l.length ≤ (l.flatMap fun c => if c = '"' then ['"', '"'] else [c]).length := by
  induction l with
  | nil => simp
  | cons c t ih =>
    rw [List.flatMap_cons, List.length_append, List.length_cons]
    by_cases h : c = '"'
    · rw [if_pos h]
      simp only [List.length_cons, List.length_nil]
      omega
    · rw [if_neg h]
      simp only [List.length_cons, List.length_nil]
      omega

theorem escape_quoted_ne {v : String}
    (h : (jsIncludesChar v ',' || jsIncludesChar v '"' || jsIncludesChar v '\n') = true) :
    escapeCsvValue v ≠ v := by
  unfold escapeCsvValue
  simp only [h, if_true]
  intro heq
  have hlen : ("\"" ++ jsReplaceQuotes v ++ "\"").data.length = v.data.length := by
    rw [heq]
  rw [stringDataAppend, stringDataAppend, List.length_append, List.length_append] at hlen
  have hge := flatMapQuote_length_ge v.data
  have hq : (jsReplaceQuotes v).data.length =
      (v.data.flatMap fun c => if c = '"' then ['"', '"'] else [c]).length := rfl
  have h1 : ("\"" : String).data.length = 1 := rfl
  rw [hq, h1] at hlen
  omega

/-- C4 (corrected): `escapeCsvValue` quotes (and doubles internal quotes)
exactly when the value contains a comma, a quote character, or a newline — the
comma is hard-coded and the configured field delimiter plays no role. -/
theorem C4_escape_quotes_iff_comma_quote_newline (v : String) :
    escapeCsvValue v ≠ v ↔
      (jsIncludesChar v ',' = true ∨ jsIncludesChar v '"' = true ∨
        jsIncludesChar v '\n' = true) := by
  constructor
  · intro hne
    by_contra hor
    push_neg at hor
    obtain ⟨h1, h2, h3⟩ := hor
    simp only [ne_eq, Bool.not_eq_true] at h1 h2 h3
    apply hne
    unfold escapeCsvValue
    simp [h1, h2, h3]
  · intro hor
    apply escape_quoted_ne
    rcases hor with h | h | h <;> simp [h]

/-- C4 counterexample: with the configured delimiter `;`, the value `";"`
contains the delimiter yet is returned unquoted, refuting the claimed quoting
condition for non-comma delimiters. -/
theorem C4_counterexample_semicolon_delimiter : ¬ escapeQuotesExactlyForDelim ';' := by
  intro h
  have h2 := (h ";").mpr (Or.inl (by decide))
  exact h2 (by decide)

/-- C2 counterexample: a published form whose only field is a *section* with
`required = true` rejects the empty submission with a required-field error for
that section — sections are not exempt from the required-field check. -/
theorem C2_counterexample_required_section_errors :
    submitPOST (some sectionForm) [] emptyBody =
      .validationFailed ["Field \"Intro\" is required"] ∧
    sectionIntroField.type = .SECTION ∧ sectionIntroField.required = true := by
  decide

/-- C3 counterexample: with duplicate prevention on, a stored response for
`a@b.com` and a submission from `a@b.com` that also misses the required field,
the handler rejects with only the required-field list — the duplicate-email
failure is not in it; the duplicate rejection appears only when steps 2–4
produce no errors, and then alone. -/
theorem C3_counterexample_duplicate_not_accumulated :
    duplicateSubmission dupForm.settings dupExisting dupBody.respondentEmail = true ∧
    submitPOST (some dupForm) dupExisting dupBody =
      .validationFailed ["Field \"Name\" is required"] ∧
    "You have already submitted this form" ∉ ["Field \"Name\" is required"] ∧
    submitPOST (some dupForm) dupExisting dupOkBody = .duplicate := by
  decide

/-- C7 counterexample: the bulk reorder endpoint writes the client-supplied
orders verbatim; a payload assigning orders `5` and `7` leaves the form's
fields with exactly those non-contiguous orders. -/
theorem C7_counterexample_reorder_not_renumbered :
    reorderPUT [fieldA, fieldB] [("f1", 5), ("f2", 7)] =
      some [{ fieldA with order := 5 }, { fieldB with order := 7 }] ∧
    ¬ ordersContiguous [{ fieldA with order := 5 }, { fieldB with order := 7 }] := by
  constructor
  · decide
  · unfold ordersContiguous
    decide

/-- C8 counterexample: `"Infinity"` is accepted by the NUMBER validator
although it does not parse to a finite value, refuting "accepts iff finite". -/
theorem C8_counterexample_Infinity_accepted : ¬ numberAcceptsIffFinite := by
  intro h
  obtain ⟨q, hq⟩ := (h "Infinity").mp (by decide)
  rw [show jsNumber "Infinity" = .posInf from by decide] at hq
  exact JsNum.noConfusion hq

theorem stringDataEq {a b : String} (h : a.data = b.data) : a = b := by
  cases a
  cases b
  cases h
  rfl

theorem stringAppendAssoc (a b c : String) : a ++ b ++ c = a ++ (b ++ c) :=
  stringDataEq (by
    rw [stringDataAppend, stringDataAppend, stringDataAppend, stringDataAppend,
      List.append_assoc])

/-- C2 (corrected): the required-field check applies to every field with
`required = true` regardless of its type, sections included — a submission
that omits such a field, or supplies only blank (whitespace-only) values for
it, receives the required-field error naming its label.  (The hypothesis
covers both cases at once: every entry carrying the field's id, if any, has a
blank trimmed value; omission is the vacuous case.)  Sections are exempt only
from type/format validation, whose SECTION rule accepts every value. -/
theorem C2_required_check_applies_to_sections
    (form : Form) (body : SubmitBody) (field : FormField)
    (hmem : field ∈ form.fields) (hreq : field.required = true)
    (hblank : ∀ sf ∈ body.fields, sf.fieldId = field.id → jsTrim sf.value = "") :
    ("Field \"" ++ field.label ++ "\" is required") ∈ requiredFieldErrors form body.fields ∧
    (∀ v : String, fieldValidators .SECTION v = true) := by
  constructor
  · unfold requiredFieldErrors
    apply List.mem_flatMap.mpr
    refine ⟨field, List.mem_filter.mpr ⟨hmem, by simp [hreq]⟩, ?_⟩
    cases hfind : body.fields.find? (fun sf => sf.fieldId = field.id) with
    | none => simp
    | some sf =>
      have hmemsf : sf ∈ body.fields := List.mem_of_find?_eq_some hfind
      have hid : sf.fieldId = field.id := by simpa using List.find?_some hfind
      show ("Field \"" ++ field.label ++ "\" is required") ∈
        (if jsTrim sf.value = "" then ["Field \"" ++ field.label ++ "\" is required"] else [])
      rw [if_pos (hblank sf hmemsf hid)]
      simp
  · intro v
    rfl

/-- Closed witness for C2's amended statement: the required section field of
`sectionForm` supplied with a whitespace-only value. -/
theorem C2_required_check_applies_to_sections_witness :
    ("Field \"Intro\" is required") ∈
      requiredFieldErrors sectionForm [{ fieldId := "sec-1", value := "   " }] ∧
    (∀ v : String, fieldValidators .SECTION v = true) := by
  have h := C2_required_check_applies_to_sections sectionForm
    { respondentEmail := none, fields := [{ fieldId := "sec-1", value := "   " }] }
    sectionIntroField (by decide) rfl (by decide)
  exact ⟨h.1, h.2⟩

/-- Every error the accumulation phase can produce names a field (it begins
with `Field "`). -/
theorem validationErrors_shape (form : Form) (submitted : List SubmittedField) :
    ∀ e ∈ validationErrorsOf form submitted, ∃ r, e = "Field \"" ++ r := by
  intro e he
  unfold validationErrorsOf at he
  rw [List.mem_append] at he
  rcases he with he | he
  · unfold requiredFieldErrors at he
    rw [List.mem_flatMap] at he
    obtain ⟨f, _, hin⟩ := he
    rcases hfind : submitted.find? (fun sf => sf.fieldId = f.id) with _ | sf
    · rw [hfind] at hin
      rw [List.mem_singleton] at hin
      subst hin
      exact ⟨f.label ++ "\" is required", by rw [stringAppendAssoc]⟩
    · rw [hfind] at hin
      have hin' : e ∈ (if jsTrim sf.value = "" then ["Field \"" ++ f.label ++ "\" is required"]
          else []) := hin
      by_cases ht : jsTrim sf.value = ""
      · rw [if_pos ht, List.mem_singleton] at hin'
        subst hin'
        exact ⟨f.label ++ "\" is required", by rw [stringAppendAssoc]⟩
      · rw [if_neg ht] at hin'
        exact absurd hin' (List.not_mem_nil e)
  · unfold typeOptionErrors at he
    rw [List.mem_flatMap] at he
    obtain ⟨sf, _, hin⟩ := he
    rcases hfind : form.fields.find? (fun f => f.id = sf.fieldId) with _ | field
    · rw [hfind] at hin
      exact absurd hin (List.not_mem_nil e)
    · rw [hfind] at hin
      have hin' : e ∈
          ((if jsTrim sf.value ≠ "" ∧ fieldValidators field.type sf.value = false then
            ["Field \"" ++ field.label ++ "\" contains invalid data"]
          else []) ++
          (if isChoiceWithOptions field then
            match ((jsSplit sf.value ',').map jsTrim).find?
                (fun v => v ≠ "" ∧ field.options.contains v = false) with
            | some v => ["Field \"" ++ field.label ++ "\" contains invalid option: " ++ v]
            | none => []
          else [])) := hin
      clear hin
      rw [List.mem_append] at hin'
      rcases hin' with hin | hin
      · by_cases ht : jsTrim sf.value ≠ "" ∧ fieldValidators field.type sf.value = false
        · rw [if_pos ht, List.mem_singleton] at hin
          subst hin
          exact ⟨field.label ++ "\" contains invalid data", by rw [stringAppendAssoc]⟩
        · rw [if_neg ht] at hin
          exact absurd hin (List.not_mem_nil e)
      · by_cases hc : isChoiceWithOptions field = true
        · rw [if_pos hc] at hin
          rcases hbad : ((jsSplit sf.value ',').map jsTrim).find?
              (fun v => v ≠ "" ∧ field.options.contains v = false) with _ | v
          · rw [hbad] at hin
            exact absurd hin (List.not_mem_nil e)
          · rw [hbad, List.mem_singleton] at hin
            subst hin
            refine ⟨field.label ++ ("\" contains invalid option: " ++ v), ?_⟩
            rw [← stringAppendAssoc, ← stringAppendAssoc]
        · rw [if_neg hc] at hin
          exact absurd hin (List.not_mem_nil e)

/-- C3 (corrected): after the limit check passes, the handler accumulates the
required-field, type/format and option-membership failures (steps 2–4) into
one list and rejects with exactly that list when it is non-empty; the
duplicate-email check is *not* part of the accumulation — it runs only when
that list is empty and then rejects alone with its own message, which can
never occur in the accumulated list (every accumulated error begins with
`Field "`). -/
theorem C3_duplicate_check_separate_from_accumulation
    (form : Form) (existing : List ExistingResponse) (body : SubmitBody)
    (hpub : form.status = .PUBLISHED)
    (hlimit : submissionLimitReached form.settings existing.length = false) :
    (validationErrorsOf form body.fields ≠ [] →
      submitPOST (some form) existing body =
        .validationFailed (validationErrorsOf form body.fields)) ∧
    (validationErrorsOf form body.fields = [] →
      duplicateSubmission form.settings existing body.respondentEmail = true →
      submitPOST (some form) existing body = .duplicate) ∧
    (∀ e ∈ validationErrorsOf form body.fields, ∃ r, e = "Field \"" ++ r) ∧
    (∀ r : String, "Field \"" ++ r ≠ "You have already submitted this form") := by
  refine ⟨?_, ?_, validationErrors_shape form body.fields, ?_⟩
  · intro h
    unfold submitPOST
    simp [hpub, hlimit, h]
  · intro h hd
    unfold submitPOST
    simp [hpub, hlimit, h, hd]
  · intro r heq
    have hd : ("Field \"" ++ r).data = ("You have already submitted this form" : String).data := by
      rw [heq]
    rw [stringDataAppend] at hd
    have h1 : (("Field \"" : String).data ++ r.data).head? = some 'F' := rfl
    rw [hd] at h1
    have h2 : (("You have already submitted this form" : String).data).head? = some 'Y' := rfl
    rw [h2] at h1
    exact absurd (Option.some.inj h1) (by decide)

/-- Closed witness for C3's amended statement: clean field values plus a
duplicate email reject with the standalone duplicate error. -/
theorem C3_duplicate_check_separate_witness :
    submitPOST (some dupForm) dupExisting dupOkBody = .duplicate := by
  have h := C3_duplicate_check_separate_from_accumulation dupForm dupExisting dupOkBody
    rfl (by decide)
  exact h.2.1 (by decide) (by decide)

theorem FormField_set_order_self (f : FormField) : { f with order := f.order } = f := rfl

theorem reorder_foldl_eq (payload : List (String × ℤ)) :
    ∀ fs : List FormField,
      payload.foldl
        (fun fs p => fs.map (fun f => if f.id = p.1 then { f with order := p.2 } else f)) fs =
      fs.map (fun f => { f with order := lastPayloadOrder payload f.id f.order }) := by
  induction payload with
  | nil =>
    intro fs
    simp [lastPayloadOrder, FormField_set_order_self]
  | cons p ps ih =>
    intro fs
    rw [List.foldl_cons, ih, List.map_map]
    apply List.map_congr_left
    intro f _
    simp only [Function.comp]
    by_cases h : f.id = p.1
    · rw [if_pos h]
      show ({ f with order := lastPayloadOrder ps f.id p.2 } : FormField) =
        { f with order := lastPayloadOrder ps f.id (if f.id = p.1 then p.2 else f.order) }
      rw [if_pos h]
    · rw [if_neg h]
      show ({ f with order := lastPayloadOrder ps f.id f.order } : FormField) =
        { f with order := lastPayloadOrder ps f.id (if f.id = p.1 then p.2 else f.order) }
      rw [if_neg h]

theorem reorderPUT_writes_payload_orders (fs : List FormField) (payload : List (String × ℤ))
    (h : payload.all (fun p => fs.any (fun f => f.id = p.1)) = true) :
    reorderPUT fs payload =
      some (fs.map (fun f => { f with order := lastPayloadOrder payload f.id f.order })) := by
  unfold reorderPUT
  rw [if_pos h, reorder_foldl_eq]

theorem renumberFrom_length (n : ℤ) (l : List FormField) :
    (renumberFrom n l).length = l.length := by
  induction l generalizing n with
  | nil => rfl
  | cons f t ih => rw [renumberFrom, List.length_cons, List.length_cons, ih]

theorem renumberFrom_map_order (n : ℤ) (l : List FormField) :
    (renumberFrom n l).map (fun f => f.order) =
      (List.range l.length).map (fun i : ℕ => n + (i : ℤ)) := by
  induction l generalizing n with
  | nil => simp [renumberFrom]
  | cons f t ih =>
    rw [renumberFrom, List.map_cons, ih, List.length_cons, List.range_succ_eq_map,
      List.map_cons, List.map_map]
    congr 1
    · simp
    · apply List.map_congr_left
      intro i _
      simp only [Function.comp, Nat.succ_eq_add_one]
      push_cast
      ring

theorem insertSorted_length {α : Type} (le : α → α → Bool) (a : α) (l : List α) :
    (insertSorted le a l).length = l.length + 1 := by
  induction l with
  | nil => rfl
  | cons b t ih =>
    unfold insertSorted
    by_cases h : le a b = true <;> simp [h, ih, List.length_cons]

theorem stableSort_length {α : Type} (le : α → α → Bool) (l : List α) :
    (stableSort le l).length = l.length := by
  induction l with
  | nil => rfl
  | cons a t ih =>
    unfold stableSort
    rw [insertSorted_length, ih, List.length_cons]

theorem insertSorted_cons_of_le {α : Type} (le : α → α → Bool) (a : α) (l : List α)
    (h : ∀ b ∈ l.head?, le a b = true) : insertSorted le a l = a :: l := by
  cases l with
  | nil => rfl
  | cons b t =>
    unfold insertSorted
    rw [if_pos (h b rfl)]

theorem stableSort_of_chain {α : Type} (le : α → α → Bool) :
    ∀ l : List α, List.Chain' (fun a b => le a b = true) l → stableSort le l = l := by
  intro l
  induction l with
  | nil => intro _; rfl
  | cons a t ih =>
    intro h
    unfold stableSort
    rw [ih h.tail]
    exact insertSorted_cons_of_le le a t (List.chain'_cons'.mp h).1

theorem renumberFrom_chain (n : ℤ) (l : List FormField) :
    List.Chain' (fun a b : FormField => (decide (a.order ≤ b.order)) = true)
      (renumberFrom n l) := by
  induction l generalizing n with
  | nil => simp [renumberFrom]
  | cons f t ih =>
    rw [renumberFrom]
    apply List.chain'_cons'.mpr
    refine ⟨?_, ih (n + 1)⟩
    intro b hb
    cases t with
    | nil => simp [renumberFrom] at hb
    | cons g u =>
      rw [renumberFrom] at hb
      have hb' : ({ g with order := n + 1 } : FormField) = b := Option.some.inj hb
      rw [decide_eq_true_eq, ← hb']
      show n ≤ n + 1
      omega

theorem deleteFieldDELETE_contiguous (fs : List FormField) (fid : String)
    (fs' : List FormField) (h : deleteFieldDELETE fs fid = some fs') :
    ordersContiguous fs' := by
  unfold deleteFieldDELETE at h
  by_cases hex : fs.any (fun f => f.id = fid) = true
  · rw [if_pos hex] at h
    injection h with h
    subst h
    unfold ordersContiguous sortFieldsByOrder
    rw [stableSort_of_chain _ _ (renumberFrom_chain 0 _), renumberFrom_map_order,
      renumberFrom_length]
    apply List.map_congr_left
    intro i _
    simp [Int.ofNat_eq_coe]
  · rw [if_neg hex] at h
    cases h

/-- C7 (corrected): deleting a field renumbers the form's remaining fields
contiguously from zero, but the bulk reorder (PUT) performs no renumbering:
it writes the client-supplied order values verbatim (for each field, the last
payload order for its id, or its stored order when the payload omits it), so
after a reorder the orders are contiguous only if the payload itself is a
contiguous renumbering. -/
theorem C7_delete_renumbers_reorder_verbatim :
    (∀ (fs : List FormField) (fid : String) (fs' : List FormField),
      deleteFieldDELETE fs fid = some fs' → ordersContiguous fs') ∧
    (∀ (fs : List FormField) (payload : List (String × ℤ)),
      payload.all (fun p => fs.any (fun f => f.id = p.1)) = true →
      reorderPUT fs payload =
        some (fs.map (fun f => { f with order := lastPayloadOrder payload f.id f.order }))) :=
  ⟨deleteFieldDELETE_contiguous, reorderPUT_writes_payload_orders⟩

/-- Closed witness for C7's amended statement: a concrete deletion yields
contiguous orders and a concrete reorder writes the payload order verbatim. -/
theorem C7_delete_renumbers_reorder_verbatim_witness :
    ordersContiguous [{ fieldB with order := 0 }] ∧
    reorderPUT [fieldA, fieldB] [("f2", 9)] = some [fieldA, { fieldB with order := 9 }] := by
  have h := C7_delete_renumbers_reorder_verbatim
  constructor
  · exact h.1 [{ fieldA with order := 3 }, { fieldB with order := 7 }] "f1"
      [{ fieldB with order := 0 }] (by decide)
  · have h2 := h.2 [fieldA, fieldB] [("f2", 9)] (by decide)
    rw [h2]
    decide

theorem isJsSpace_eq_false_of_isDigit {c : Char} (h : c.isDigit = true) :
    isJsSpace c = false := by
  unfold isJsSpace
  apply decide_eq_false
  rintro (h' | h' | h' | h') <;> subst h' <;> exact absurd h (by decide)

theorem dropWhile_eq_self_of_all {f : Char → Bool} {l : List Char}
    (h : ∀ c ∈ l, f c = false) : l.dropWhile f = l := by
  cases l with
  | nil => rfl
  | cons a t =>
    rw [List.dropWhile_cons, h a (List.mem_cons_self a t)]
    simp

theorem trimList_eq_self {l : List Char} (h : ∀ c ∈ l, isJsSpace c = false) :
    trimList l = l := by
  unfold trimList
  rw [dropWhile_eq_self_of_all h,
    dropWhile_eq_self_of_all (fun c hc => h c (List.mem_reverse.mp hc)),
    List.reverse_reverse]

theorem map_eq_self_of_eq {α : Type} {f : α → α} :
    ∀ {l : List α}, (∀ c ∈ l, f c = c) → l.map f = l := by
  intro l
  induction l with
  | nil => intro _; rfl
  | cons a t ih =>
    intro h
    rw [List.map_cons, h a (List.mem_cons_self a t),
      ih (fun c hc => h c (List.mem_cons_of_mem a hc))]

theorem splitOnCharList_of_not_mem {sep : Char} {l : List Char}
    (h : ∀ c ∈ l, c ≠ sep) : splitOnCharList sep l = [l] := by
  induction l with
  | nil => rfl
  | cons a t ih =>
    unfold splitOnCharList
    rw [ih (fun c hc => h c (List.mem_cons_of_mem a hc))]
    show (if a = sep then [[], t] else [a :: t]) = [a :: t]
    rw [if_neg (h a (List.mem_cons_self a t))]

theorem take_ne_of_all_digits {l : List Char} (hdig : ∀ c ∈ l, c.isDigit = true)
    {n : ℕ} {target : List Char} (c : Char) (hc : c ∈ target) (hcd : c.isDigit = false) :
    l.take n ≠ target := by
  intro h
  have hmem : c ∈ l := List.take_subset n l (h ▸ hc)
  rw [hdig c hmem] at hcd
  cases hcd

theorem parseDecimalLiteral_digits {l : List Char} (hne : l ≠ [])
    (hdig : ∀ c ∈ l, c.isDigit = true) :
    parseDecimalLiteral l = some ((natOfDigits l : ℚ)) := by
  unfold parseDecimalLiteral
  rw [map_eq_self_of_eq (fun c hc => if_neg (fun h => by
    rw [h] at hc
    exact absurd (hdig 'E' hc) (by decide)))]
  rw [splitOnCharList_of_not_mem (fun c hc h => by
    rw [h] at hc
    exact absurd (hdig 'e' hc) (by decide))]
  show parseMantissa l = some ((natOfDigits l : ℚ))
  unfold parseMantissa
  rw [splitOnCharList_of_not_mem (fun c hc h => by
    rw [h] at hc
    exact absurd (hdig '.' hc) (by decide))]
  show (if l ≠ [] ∧ l.all Char.isDigit then some ((natOfDigits l : ℚ)) else none) =
    some ((natOfDigits l : ℚ))
  rw [if_pos ⟨hne, List.all_eq_true.mpr hdig⟩]

theorem digitVal_le_nine {c : Char} (h : c.isDigit = true) : digitVal c ≤ 9 := by
  unfold Char.isDigit at h
  rw [Bool.and_eq_true, decide_eq_true_eq, decide_eq_true_eq] at h
  have h2 : c.toNat ≤ 57 := UInt32.toNat_le_of_le (by decide) h.2
  have h0 : ('0' : Char).toNat = 48 := rfl
  unfold digitVal
  rw [h0]
  omega

theorem natOfDigits_fold_lt {l : List Char} (hdig : ∀ c ∈ l, c.isDigit = true) :
    ∀ a : ℕ, l.foldl (fun a c => a * 10 + digitVal c) a < (a + 1) * 10 ^ l.length := by
  induction l with
  | nil =>
    intro a
    simp
  | cons c t ih =>
    intro a
    rw [List.foldl_cons, List.length_cons]
    have hd : digitVal c ≤ 9 := digitVal_le_nine (hdig c (List.mem_cons_self c t))
    have ht := ih (fun x hx => hdig x (List.mem_cons_of_mem c hx)) (a * 10 + digitVal c)
    refine lt_of_lt_of_le ht ?_
    have hmul : a * 10 + digitVal c + 1 ≤ (a + 1) * 10 := by omega
    calc (a * 10 + digitVal c + 1) * 10 ^ t.length
        ≤ ((a + 1) * 10) * 10 ^ t.length := Nat.mul_le_mul_right _ hmul
      _ = (a + 1) * 10 ^ (t.length + 1) := by ring

theorem natOfDigits_lt_pow {l : List Char} (hdig : ∀ c ∈ l, c.isDigit = true) :
    natOfDigits l < 10 ^ l.length := by
  have h := natOfDigits_fold_lt hdig 0
  unfold natOfDigits
  simpa using h

set_option maxRecDepth 8000 in
theorem jsNumber_digits_finite {l : List Char} (hne : l ≠ []) (hlen : l.length ≤ 308)
    (hdig : ∀ c ∈ l, c.isDigit = true) :
    jsNumber (String.mk l) = .finite ((natOfDigits l : ℚ)) := by
  have hval : natOfDigits l < 2 ^ 1024 - 2 ^ 970 :=
    lt_of_lt_of_le (natOfDigits_lt_pow hdig)
      (le_trans (Nat.pow_le_pow_right (by omega) hlen) (by decide))
  have hbig : ¬ (jsHugeThreshold ≤ (natOfDigits l : ℚ)) := by
    rw [not_le]
    unfold jsHugeThreshold
    exact_mod_cast hval
  have htrim : trimList (String.mk l).data = l :=
    trimList_eq_self (fun c hc => isJsSpace_eq_false_of_isDigit (hdig c hc))
  unfold jsNumber
  rw [htrim]
  rw [if_neg hne]
  rw [if_neg (by
    rintro (h | h)
    · exact take_ne_of_all_digits hdig 'x' (by decide) (by decide) h
    · exact take_ne_of_all_digits hdig 'X' (by decide) (by decide) h)]
  rw [if_neg (by
    rintro (h | h)
    · exact take_ne_of_all_digits hdig 'o' (by decide) (by decide) h
    · exact take_ne_of_all_digits hdig 'O' (by decide) (by decide) h)]
  rw [if_neg (by
    rintro (h | h)
    · exact take_ne_of_all_digits hdig 'b' (by decide) (by decide) h
    · exact take_ne_of_all_digits hdig 'B' (by decide) (by decide) h)]
  unfold stripSign
  rw [if_neg (take_ne_of_all_digits hdig '+' (by decide) (by decide)),
    if_neg (take_ne_of_all_digits hdig '-' (by decide) (by decide))]
  show (if l = "Infinity".data then JsNum.posInf
    else
      match parseDecimalLiteral l with
      | some q => jsSaturate false q
      | none => JsNum.nan) = JsNum.finite ((natOfDigits l : ℚ))
  rw [if_neg (by
    intro h
    have hi : ('I' : Char) ∈ l := by
      rw [h]
      decide
    exact absurd (hdig 'I' hi) (by decide))]
  rw [parseDecimalLiteral_digits hne hdig]
  show jsSaturate false ((natOfDigits l : ℚ)) = JsNum.finite ((natOfDigits l : ℚ))
  unfold jsSaturate
  rw [if_neg hbig]
  rfl

set_option maxRecDepth 8000 in
/-- C8 (corrected): the NUMBER validator accepts a string exactly when
`Number(value)` is not NaN and the trimmed value is non-empty — so infinite
parses are accepted too (`"Infinity"` passes).  Every non-empty digit string
of at most 308 digits is accepted and parses to a finite value; longer digit
strings can exceed the IEEE-754 double range and saturate to `Infinity` (309
nines do) while still being accepted. -/
theorem C8_number_accepts_nonNaN_not_only_finite
    (v : String) (l : List Char) (hne : l ≠ []) (hlen : l.length ≤ 308)
    (hdig : ∀ c ∈ l, c.isDigit = true) :
    (fieldValidators .NUMBER v = true ↔
      ((jsNumber v).isNaN = false ∧ jsTrim v ≠ "")) ∧
    (fieldValidators .NUMBER (String.mk l) = true ∧
      ∃ q : ℚ, jsNumber (String.mk l) = .finite q) ∧
    fieldValidators .NUMBER "Infinity" = true ∧
    (jsNumber (String.mk (List.replicate 309 '9')) = .posInf ∧
      fieldValidators .NUMBER (String.mk (List.replicate 309 '9')) = true) := by
  refine ⟨?_, ⟨?_, ⟨(natOfDigits l : ℚ), jsNumber_digits_finite hne hlen hdig⟩⟩,
    by decide, by decide, by decide⟩
  · unfold fieldValidators
    rw [decide_eq_true_eq]
    simp only [ne_eq, Bool.not_eq_true]
  · unfold fieldValidators
    rw [decide_eq_true_eq]
    constructor
    · rw [jsNumber_digits_finite hne hlen hdig]
      simp [JsNum.isNaN]
    · intro h
      have hd : trimList l = [] := congrArg String.data h
      rw [trimList_eq_self (fun c hc => isJsSpace_eq_false_of_isDigit (hdig c hc))] at hd
      exact hne hd

/-- Closed witness for C8's amended statement at the digit string "42". -/
theorem C8_number_accepts_nonNaN_witness :
    fieldValidators .NUMBER "42" = true ∧ (∃ q : ℚ, jsNumber "42" = .finite q) := by
  have h := C8_number_accepts_nonNaN_not_only_finite "42" ['4', '2'] (by decide) (by decide)
    (by decide)
  exact ⟨h.2.1.1, h.2.1.2⟩
